import Mathlib

/-!
Shallow embedding of `pkg-testing-tool` (`src/pkg_testing_tool/main.py`):
the build-matrix orchestration engine.  File-system effects on the
portage configuration directories, the process umask, printed output and
the external `emerge` invocations are modelled by an explicit state
(`St`) threaded through the functions; fatal `edie`/`sys.exit` paths are
modelled with `Except`.  The external collaborators
(`get_package_flags`, `get_use_combinations`, the `emerge` subprocess)
are parameters: the declared flag list, the sampled combination list and
an exit-code oracle.
-/

namespace PkgTestingTool

/-- Python `str.split()` chunking: cut a character list at whitespace.
Chunks between separators are kept (possibly empty). -/
def splitChunks (p : Char → Bool) : List Char → List (List Char)
  | [] => [[]]
  | c :: cs =>
    if p c then [] :: splitChunks p cs
    else
      match splitChunks p cs with
      | [] => [[c]]
      | chunk :: rest => (c :: chunk) :: rest

/-- Python `str.split()` with no argument: split on whitespace and drop
empty tokens. -/
def pySplit (s : String) : List String :=
  ((splitChunks Char.isWhitespace s.data).map (fun cs => String.mk cs)).filter
    (fun t => ¬ t = "")

/-- Python `" ".join(xs)`. -/
def joinSpace : List String → String
  | [] => ""
  | [f] => f
  | f :: rest => f ++ " " ++ joinSpace rest

/-- The fixed safety FEATURES string of `run_testing` (main.py line 105). -/
def featuresBase : String := "multilib-strict collision-protect sandbox userpriv usersandbox"

/-- FEATURES to append for one run: the safety set, plus `test` when the
test-feature toggle is on (main.py lines 105-108). -/
def composedFeatures (test_feature_toggle : Bool) : String :=
  if test_feature_toggle then featuresBase ++ " " ++ "test" else featuresBase

/-- The final value of `env['FEATURES']` (main.py lines 110-113): the
inherited value, when present, with the composed features appended. -/
def newFeatures (inherited : Option String) (test_feature_toggle : Bool) : String :=
  match inherited with
  | some v => v ++ " " ++ composedFeatures test_feature_toggle
  | none => composedFeatures test_feature_toggle

/-- The environment passed to `emerge` (main.py lines 103-113): a copy of
the inherited process environment with only `FEATURES` updated. -/
def runEnv (inheritedEnv : String → Option String) (test_feature_toggle : Bool) :
    String → Option String :=
  fun k =>
    if k = "FEATURES" then some (newFeatures (inheritedEnv "FEATURES") test_feature_toggle)
    else inheritedEnv k

/-- `bool('test' in env['FEATURES'].split())` (main.py line 131). -/
def tfVal (inherited : Option String) (test_feature_toggle : Bool) : Bool :=
  decide ("test" ∈ pySplit (newFeatures inherited test_feature_toggle))

/-- One overlay file living in a configuration directory: unique id,
directory, current content, permission bits. -/
structure FileEntry where
  id : Nat
  dir : String
  content : String
  mode : Nat
deriving DecidableEq, Repr

/-- One run record (main.py lines 127-133). -/
structure RunRecord where
  flags : List String
  exit_code : Int
  test_feature : Bool
deriving DecidableEq, Repr

/-- Observable events of an execution, in order. -/
inductive Event where
  | created (dir : String) (id : Nat)
  | wrote (id : Nat) (text : String)
  | emerged (package : String) (features : String) (exitCode : Int)
      (useFiles : List (Nat × String))
  | removed (id : Nat)
  | printed (line : String)
  | reportWritten (path : String) (results : List RunRecord)
deriving DecidableEq, Repr

/-- The explicit state: existing configuration directories, live overlay
files, a fresh-name counter, the process umask, and the event trace. -/
structure St where
  dirs : List String
  files : List FileEntry
  nextId : Nat
  umask : Nat
  events : List Event
deriving DecidableEq, Repr

/-- A fatal exit (`sys.exit`). -/
inductive PErr where
  | exit (code : Nat)
deriving DecidableEq, Repr

def printSt (line : String) (st : St) : St :=
  { st with events := st.events ++ [.printed line] }

/-- `einfo` (main.py lines 82-83). -/
def einfoSt (msg : String) (st : St) : St :=
  printSt ("[INFO] >>> " ++ msg) st

/-- `edie` (main.py lines 86-88): print the error line and exit 1. -/
def edieSt (msg : String) (st : St) : PErr × St :=
  (.exit 1, printSt ("[ERROR] >>> " ++ msg) st)

/-- `os.umask(mask)`: set the process umask, return the previous value. -/
def os_umask (mask : Nat) (st : St) : Nat × St :=
  (st.umask, { st with umask := mask })

/-- `os.chmod(fd.name, mode)` on the overlay with the given id. -/
def chmod (id mode : Nat) (st : St) : St :=
  { st with files := st.files.map fun f => if f.id == id then { f with mode := mode } else f }

/-- `fd.write(text)`: append to the overlay's content. -/
def fwrite (id : Nat) (text : String) (st : St) : St :=
  { st with
    files := st.files.map fun f =>
      if f.id == id then { f with content := f.content ++ text } else f,
    events := st.events ++ [.wrote id text] }

/-- Closing a `NamedTemporaryFile`: the file is deleted. -/
def closeTmp (id : Nat) (st : St) : St :=
  { st with files := st.files.eraseP (fun f => f.id == id),
            events := st.events ++ [.removed id] }

/-- `temporary_package_file` (main.py lines 12-26): check the directory
exists (fatal `edie` otherwise), create a uniquely named temporary file
there, read the umask without changing it, and chmod the file to
`0o644 & ~umask`. -/
def temporary_package_file (directory_name : String) (st : St) : Except PErr Nat × St :=
  if directory_name ∈ st.dirs then
    let id := st.nextId
    let st1 : St :=
      { st with files := ⟨id, directory_name, "", 0o600⟩ :: st.files,
                nextId := id + 1,
                events := st.events ++ [.created directory_name id] }
    let p1 := os_umask 0 st1
    let umask := p1.1
    let st2 := (os_umask umask p1.2).2
    let st3 := chmod id (0o644 &&& (0o777 ^^^ (umask &&& 0o777))) st2
    (.ok id, st3)
  else
    let p := edieSt ("The location /etc/portage/" ++ directory_name ++
      " needs to exist and be a directory") st
    (.error p.1, p.2)

/-- `run_testing` (main.py lines 91-133): compose FEATURES, open the
per-run `package.use` overlay, write the selector line when the flag set
is non-empty, run `emerge` (exit code `ec` supplied by the oracle),
print a blank line, close the overlay, append the run record. -/
def run_testing (package use_flags_scope : String) (flags_set : List String)
    (test_feature_toggle : Bool) (inherited : Option String) (ec : Int)
    (results : List RunRecord) (st : St) : Except PErr (List RunRecord) × St :=
  let featuresEnv := newFeatures inherited test_feature_toggle
  match temporary_package_file "package.use" st with
  | (.error e, st1) => (.error e, st1)
  | (.ok id, st1) =>
    let st2 :=
      if flags_set.isEmpty then st1
      else
        fwrite id
          ((if use_flags_scope = "global" then "*/*" else package) ++ " " ++
            joinSpace flags_set ++ "\n") st1
    let st3 : St :=
      { st2 with events := st2.events ++
          [.emerged package featuresEnv ec
            ((st2.files.filter (fun f => f.dir == "package.use")).map
              (fun f => (f.id, f.content)))] }
    let st4 := printSt "" st3
    let st5 := closeTmp id st4
    (.ok (results ++ [{ flags := flags_set, exit_code := ec,
                        test_feature := decide ("test" ∈ pySplit featuresEnv) }]), st5)

/-- Python truthiness of `use_combinations` (`None` and `[]` are falsy). -/
def truthy (o : Option (List (List String))) : Bool :=
  match o with
  | none => false
  | some l => ¬ l.isEmpty

/-- The matrix loop (main.py lines 174-185): for each combination, print
the progress line and run once with the matrix toggle. -/
def runMatrix (package use_flags_scope : String) (test_feature_toggle : Bool)
    (inherited : Option String) (oracle : Nat → Int) (total : Nat) :
    Nat → List (List String) → List RunRecord → St →
      Except PErr (List RunRecord) × St
  | _, [], results, st => (.ok results, st)
  | idx, fs :: rest, results, st =>
    let st1 := einfoSt ("Running " ++ toString idx ++ " of " ++ toString total ++
      " build for '" ++ package ++ "' with '" ++ joinSpace fs ++ "' USE flags ...") st
    match run_testing package use_flags_scope fs test_feature_toggle inherited
        (oracle results.length) results st1 with
    | (.error e, st2) => (.error e, st2)
    | (.ok results2, st2) =>
      runMatrix package use_flags_scope test_feature_toggle inherited oracle total
        (idx + 1) rest results2 st2

/-- Arguments of `pkg_testing_tool` that the engine consumes. -/
structure Args where
  package : String
  use_flags_scope : String
  test_feature_scope : String
  report : Option String
deriving DecidableEq, Repr

/-- The run phase of `pkg_testing_tool` (main.py lines 168-195), inside
the operation-scoped overlays: the matrix loop when `use_combinations`
is truthy, then the conditional extra default-flags pass. -/
def matrixPhase (args : Args) (use_combinations : Option (List (List String)))
    (inherited : Option String) (oracle : Nat → Int) (st : St) :
    Except PErr (List RunRecord) × St :=
  match (if truthy use_combinations then
          runMatrix args.package args.use_flags_scope
            (args.test_feature_scope == "always") inherited oracle
            (use_combinations.getD []).length 1 (use_combinations.getD []) [] st
         else (.ok [], st)) with
  | (.error e, st1) => (.error e, st1)
  | (.ok results1, st1) =>
    if ¬ truthy use_combinations = true ∨ args.test_feature_scope = "once" then
      let st2 :=
        if truthy use_combinations = true ∧ args.test_feature_scope = "once" then
          einfoSt ("Additional run with FEATURES=test and default USE flags " ++
            "since test-feature-scope is set to 'once'.") st1
        else st1
      run_testing args.package args.use_flags_scope []
        (args.test_feature_scope == "once" || args.test_feature_scope == "always")
        inherited (oracle results1.length) results1 st2
    else (.ok results1, st1)

/-- The failure line printed for each failing run (main.py line 208). -/
def failLine (entry : RunRecord) : String :=
  "testing failed with flags: '" ++ joinSpace entry.flags ++ "'"

/-- `use_combinations` (main.py lines 142-145): `None` when the package
declares no optional flags, else the sampled combination list. -/
def ucOf (iuse : List String) (sampled : List (List String)) :
    Option (List (List String)) :=
  if iuse.isEmpty then none else some sampled

/-- The tail of `pkg_testing_tool` (main.py lines 197-211): compute the
failures, write the optional report, render the verdict. -/
def verdictPhase (args : Args) (results : List RunRecord) (st : St) :
    Except PErr Unit × List RunRecord × St :=
  let failures := results.filter (fun entry => ¬ entry.exit_code = 0)
  let st7 :=
    match args.report with
    | some path => { st with events := st.events ++ [.reportWritten path results] }
    | none => st
  if failures.isEmpty then
    (.ok (), results, einfoSt "All good." st7)
  else
    let st8 := failures.foldl (fun s entry => printSt (failLine entry) s) st7
    let p := edieSt ("Testing of '" ++ args.package ++ "' resulted in some failures.") st8
    (.error p.1, results, p.2)

/-- `pkg_testing_tool` (main.py lines 136-211): acquire the two
operation-scoped overlays, write them, run the matrix phase, close the
overlays (innermost first, on success and on error), then compute the
failures, write the optional report, and render the verdict
(`einfo` + exit 0, or per-failure lines + `edie`). -/
def pkg_testing_tool (args : Args) (iuse : List String) (sampled : List (List String))
    (inherited : Option String) (oracle : Nat → Int) (st : St) :
    Except PErr Unit × List RunRecord × St :=
  let use_combinations : Option (List (List String)) := ucOf iuse sampled
  match temporary_package_file "package.accept_keywords" st with
  | (.error e, st1) => (.error e, [], st1)
  | (.ok idK, st1) =>
    match temporary_package_file "package.unmask" st1 with
    | (.error e, st2) => (.error e, [], closeTmp idK st2)
    | (.ok idU, st2) =>
      let st3 := fwrite idK (args.package ++ " **") st2
      let st4 := fwrite idU args.package st3
      match matrixPhase args use_combinations inherited oracle st4 with
      | (.error e, st5) => (.error e, [], closeTmp idK (closeTmp idU st5))
      | (.ok results, st5) =>
        verdictPhase args results (closeTmp idK (closeTmp idU st5))

/-- Process exit code: 0 when `pkg_testing_tool` returns, the `sys.exit`
code otherwise. -/
def exitCodeOf (r : Except PErr Unit) : Nat :=
  match r with
  | .ok _ => 0
  | .error (.exit c) => c

/-- Well-formed state: live overlay ids are below the fresh counter. -/
def WF (st : St) : Prop :=
  ∀ f ∈ st.files, f.id < st.nextId

instance (st : St) : Decidable (WF st) := by
  unfold WF; infer_instance

/-- The mode `0o644 & ~umask` that `temporary_package_file` sets. -/
def modeFromUmask (u : Nat) : Nat := 0o644 &&& (0o777 ^^^ (u &&& 0o777))

/-- Tokens of the inherited `FEATURES` value (empty when unset). -/
def inhTokens : Option String → List String
  | none => []
  | some v => pySplit v

/-- The single line `run_testing` writes into the per-run overlay. -/
def selLine (package use_flags_scope : String) (flags_set : List String) : String :=
  (if use_flags_scope = "global" then "*/*" else package) ++ " " ++
    joinSpace flags_set ++ "\n"

/-- The events one successful `run_testing` call appends to the trace. -/
def runEvents (package use_flags_scope : String) (flags_set : List String)
    (test_feature_toggle : Bool) (inherited : Option String) (ec : Int) (st : St) :
    List Event :=
  [.created "package.use" st.nextId] ++
  (if flags_set.isEmpty then []
   else [.wrote st.nextId (selLine package use_flags_scope flags_set)]) ++
  [.emerged package (newFeatures inherited test_feature_toggle) ec
      ((st.nextId, if flags_set.isEmpty then ""
        else selLine package use_flags_scope flags_set) ::
        (st.files.filter (fun f => f.dir == "package.use")).map
          (fun f => (f.id, f.content))),
   .printed "", .removed st.nextId]

/-- The state after one successful `run_testing` call. -/
def afterRun (package use_flags_scope : String) (flags_set : List String)
    (test_feature_toggle : Bool) (inherited : Option String) (ec : Int) (st : St) : St :=
  { st with nextId := st.nextId + 1,
            events := st.events ++
              runEvents package use_flags_scope flags_set test_feature_toggle inherited ec st }

/-- The run records produced by the matrix loop: one per combination, in
order, with exit codes drawn from the oracle starting at `base`. -/
def matrixRecords (oracle : Nat → Int) (tfb : Bool) : Nat → List (List String) → List RunRecord
  | _, [] => []
  | base, fs :: rest => ⟨fs, oracle base, tfb⟩ :: matrixRecords oracle tfb (base + 1) rest

/-- The full ordered results sequence of one complete operation. -/
def expectedResults (args : Args) (use_combinations : Option (List (List String)))
    (inherited : Option String) (oracle : Nat → Int) : List RunRecord :=
  let matrixPart :=
    if truthy use_combinations then
      matrixRecords oracle (tfVal inherited (args.test_feature_scope == "always")) 0
        (use_combinations.getD [])
    else []
  if ¬ truthy use_combinations = true ∨ args.test_feature_scope = "once" then
    matrixPart ++ [⟨[], oracle matrixPart.length,
      tfVal inherited
        (args.test_feature_scope == "once" || args.test_feature_scope == "always")⟩]
  else matrixPart

/-- The full results sequence of one execution, as a function of the
inputs. -/
def finalResults (args : Args) (iuse : List String) (sampled : List (List String))
    (inherited : Option String) (oracle : Nat → Int) : List RunRecord :=
  expectedResults args (ucOf iuse sampled) inherited oracle

/-- The failing run records (main.py lines 197-200). -/
def failuresOf (results : List RunRecord) : List RunRecord :=
  results.filter (fun entry => ¬ entry.exit_code = 0)

/-- The report-writing event, when a report path was supplied. -/
def reportEvents (report : Option String) (results : List RunRecord) : List Event :=
  match report with
  | some path => [.reportWritten path results]
  | none => []

/-- The verdict output (main.py lines 206-211): per-failure lines and the
fatal error line, or the success line. -/
def verdictEvents (package : String) (results : List RunRecord) : List Event :=
  if (failuresOf results).isEmpty then [.printed "[INFO] >>> All good."]
  else
    (failuresOf results).map (fun entry => .printed (failLine entry)) ++
      [.printed ("[ERROR] >>> " ++
        ("Testing of '" ++ package ++ "' resulted in some failures."))]

/-- The state after acquiring and writing the two operation-scoped
overlays (main.py lines 151-166). -/
def bracketSt (package : String) (st : St) : St :=
  { dirs := st.dirs,
    files := ⟨st.nextId + 1, "package.unmask", "" ++ package, modeFromUmask st.umask⟩ ::
      ⟨st.nextId, "package.accept_keywords", "" ++ (package ++ " **"),
        modeFromUmask st.umask⟩ :: st.files,
    nextId := st.nextId + 1 + 1, umask := st.umask,
    events := st.events ++ [Event.created "package.accept_keywords" st.nextId] ++
      [Event.created "package.unmask" (st.nextId + 1)] ++
      [Event.wrote st.nextId (package ++ " **")] ++
      [Event.wrote (st.nextId + 1) package] }

/-! ## Helper lemmas -/

theorem splitChunks_ne_nil (p : Char → Bool) (l : List Char) : splitChunks p l ≠ [] := by
  induction l with
  | nil => simp [splitChunks]
  | cons c cs ih =>
    unfold splitChunks
    by_cases h : p c
    · simp [h]
    · simp only [h, if_neg, Bool.false_eq_true, not_false_eq_true, if_false]
      cases hcs : splitChunks p cs <;> simp

theorem splitChunks_append_sep (p : Char → Bool) (c : Char) (hc : p c = true)
    (xs ys : List Char) :
    splitChunks p (xs ++ c :: ys) = splitChunks p xs ++ splitChunks p ys := by
  induction xs with
  | nil => simp [splitChunks, hc]
  | cons a xs ih =>
    by_cases h : p a
    · simp [splitChunks, h, ih]
    · cases h1 : splitChunks p xs with
      | nil => exact absurd h1 (splitChunks_ne_nil p xs)
      | cons ch rest =>
        simp only [List.cons_append]
        conv_lhs => unfold splitChunks
        conv_rhs => unfold splitChunks
        simp [h, ih, h1]
        rw [splitChunks.eq_def]

theorem pySplit_append_space (a b : String) :
    pySplit (a ++ " " ++ b) = pySplit a ++ pySplit b := by
  unfold pySplit
  have h : (a ++ " " ++ b).data = a.data ++ ' ' :: b.data := by
    rw [String.data_append, String.data_append]
    simp
  rw [h, splitChunks_append_sep _ _ (by decide), List.map_append, List.filter_append]

theorem tfVal_true (inherited : Option String) : tfVal inherited true = true := by
  cases inherited with
  | none => decide
  | some v =>
    unfold tfVal newFeatures
    rw [decide_eq_true_eq, pySplit_append_space]
    refine List.mem_append.2 (Or.inr ?h)
    decide

theorem tfVal_false (inherited : Option String)
    (h : "test" ∉ inhTokens inherited) : tfVal inherited false = false := by
  cases inherited with
  | none => decide
  | some v =>
    unfold tfVal newFeatures
    rw [decide_eq_false_iff_not, pySplit_append_space]
    intro hmem
    rcases List.mem_append.1 hmem with h1 | h2
    · exact h h1
    · revert h2; decide

theorem map_id_of {α : Type} (l : List α) (g : α → α)
    (h : ∀ a ∈ l, g a = a) : l.map g = l := by
  induction l with
  | nil => rfl
  | cons a l ih =>
    simp [h a (List.mem_cons_self a l), ih (fun b hb => h b (List.mem_cons_of_mem a hb))]

theorem foldl_printSt (l : List RunRecord) (st : St) :
    l.foldl (fun s entry => printSt (failLine entry) s) st =
      { st with events := st.events ++ l.map (fun entry => .printed (failLine entry)) } := by
  induction l generalizing st with
  | nil => simp
  | cons a l ih =>
    rw [List.foldl_cons, ih]
    simp [printSt]

theorem matrixRecords_length (oracle : Nat → Int) (tfb : Bool) (base : Nat)
    (combos : List (List String)) :
    (matrixRecords oracle tfb base combos).length = combos.length := by
  induction combos generalizing base with
  | nil => rfl
  | cons fs rest ih => simp [matrixRecords, ih]

theorem matrixRecords_map_flags (oracle : Nat → Int) (tfb : Bool) (base : Nat)
    (combos : List (List String)) :
    (matrixRecords oracle tfb base combos).map RunRecord.flags = combos := by
  induction combos generalizing base with
  | nil => rfl
  | cons fs rest ih => simp [matrixRecords, ih]

theorem matrixRecords_map_tf (oracle : Nat → Int) (tfb : Bool) (base : Nat)
    (combos : List (List String)) :
    (matrixRecords oracle tfb base combos).map RunRecord.test_feature =
      List.replicate combos.length tfb := by
  induction combos generalizing base with
  | nil => rfl
  | cons fs rest ih => simp [matrixRecords, ih, List.replicate_succ]

/-! ## Shape and frame lemmas for `temporary_package_file` -/

theorem tpf_ok (directory_name : String) (st : St)
    (hd : directory_name ∈ st.dirs) (hw : WF st) :
    temporary_package_file directory_name st =
      (.ok st.nextId,
       { st with
         files := ⟨st.nextId, directory_name, "", modeFromUmask st.umask⟩ :: st.files,
         nextId := st.nextId + 1,
         events := st.events ++ [.created directory_name st.nextId] }) := by
  unfold temporary_package_file os_umask chmod modeFromUmask
  simp [hd]
  exact map_id_of _ _ (fun f hf => by simp [Nat.ne_of_lt (hw f hf)])

theorem tpf_err (directory_name : String) (st : St)
    (hd : directory_name ∉ st.dirs) :
    temporary_package_file directory_name st =
      (.error (.exit 1),
       printSt ("[ERROR] >>> " ++ ("The location /etc/portage/" ++ directory_name ++
         " needs to exist and be a directory")) st) := by
  simp [temporary_package_file, edieSt, hd]

theorem tpf_frame (directory_name : String) (st : St) (hw : WF st) :
    ((temporary_package_file directory_name st).2).dirs = st.dirs ∧
    ((temporary_package_file directory_name st).2).umask = st.umask ∧
    WF (temporary_package_file directory_name st).2 ∧
    st.nextId ≤ ((temporary_package_file directory_name st).2).nextId ∧
    ∃ evs, ((temporary_package_file directory_name st).2).events = st.events ++ evs := by
  by_cases hd : directory_name ∈ st.dirs
  · rw [tpf_ok directory_name st hd hw]
    refine ⟨rfl, rfl, ?hwf, Nat.le_succ _, ⟨_, rfl⟩⟩
    intro f hf
    rcases List.mem_cons.1 hf with h | h
    · simp [h]
    · exact Nat.lt_succ_of_lt (hw f h)
  · rw [tpf_err directory_name st hd]
    exact ⟨rfl, rfl, hw, Nat.le_refl _, ⟨_, rfl⟩⟩

/-! ## Shape and frame lemmas for `run_testing` -/

theorem run_testing_ok (package use_flags_scope : String) (flags_set : List String)
    (test_feature_toggle : Bool) (inherited : Option String) (ec : Int)
    (results : List RunRecord) (st : St)
    (hd : "package.use" ∈ st.dirs) (hw : WF st) :
    run_testing package use_flags_scope flags_set test_feature_toggle inherited ec
        results st =
      (.ok (results ++ [{ flags := flags_set, exit_code := ec,
                          test_feature := tfVal inherited test_feature_toggle }]),
       afterRun package use_flags_scope flags_set test_feature_toggle inherited ec st) := by
  unfold run_testing afterRun
  rw [tpf_ok _ _ hd hw]
  simp only []
  by_cases hfs : flags_set.isEmpty
  · simp [hfs, runEvents, closeTmp, printSt, tfVal]
  · simp only [hfs, Bool.false_eq_true, if_false, fwrite]
    simp [hfs, runEvents, closeTmp, printSt, tfVal, selLine]
    constructor
    · exact map_id_of _ _ (fun f hf => by simp [Nat.ne_of_lt (hw f hf)])
    · rw [map_id_of _ _ (fun f hf => by simp [Nat.ne_of_lt (hw f hf)])]

theorem run_testing_frame (package use_flags_scope : String) (flags_set : List String)
    (test_feature_toggle : Bool) (inherited : Option String) (ec : Int)
    (results : List RunRecord) (st : St) (hw : WF st) :
    ((run_testing package use_flags_scope flags_set test_feature_toggle inherited ec
        results st).2).files = st.files ∧
    ((run_testing package use_flags_scope flags_set test_feature_toggle inherited ec
        results st).2).dirs = st.dirs ∧
    ((run_testing package use_flags_scope flags_set test_feature_toggle inherited ec
        results st).2).umask = st.umask ∧
    WF (run_testing package use_flags_scope flags_set test_feature_toggle inherited ec
        results st).2 ∧
    ∃ evs, ((run_testing package use_flags_scope flags_set test_feature_toggle inherited ec
        results st).2).events = st.events ++ evs := by
  by_cases hd : "package.use" ∈ st.dirs
  · rw [run_testing_ok package use_flags_scope flags_set test_feature_toggle inherited ec
      results st hd hw]
    refine ⟨rfl, rfl, rfl, ?hwf, ⟨_, rfl⟩⟩
    intro f hf
    exact Nat.lt_succ_of_lt (hw f hf)
  · unfold run_testing
    rw [tpf_err _ _ hd]
    exact ⟨rfl, rfl, rfl, hw, ⟨_, rfl⟩⟩

theorem afterRun_WF (package use_flags_scope : String) (flags_set : List String)
    (test_feature_toggle : Bool) (inherited : Option String) (ec : Int) (st : St)
    (hw : WF st) :
    WF (afterRun package use_flags_scope flags_set test_feature_toggle inherited ec st) :=
  fun f hf => Nat.lt_succ_of_lt (hw f hf)

/-! ## Shape and frame lemmas for `runMatrix` -/

theorem runMatrix_ok (package use_flags_scope : String) (test_feature_toggle : Bool)
    (inherited : Option String) (oracle : Nat → Int) (total : Nat)
    (combos : List (List String)) :
    ∀ (idx : Nat) (results : List RunRecord) (st : St),
      "package.use" ∈ st.dirs → WF st →
      ∃ st',
        runMatrix package use_flags_scope test_feature_toggle inherited oracle total
            idx combos results st =
          (.ok (results ++
            matrixRecords oracle (tfVal inherited test_feature_toggle) results.length combos),
           st') ∧
        st'.files = st.files ∧ st'.dirs = st.dirs ∧ st'.umask = st.umask ∧ WF st' ∧
        ∃ evs, st'.events = st.events ++ evs := by
  induction combos with
  | nil =>
    intro idx results st hd hw
    exact ⟨st, by simp [runMatrix, matrixRecords], rfl, rfl, rfl, hw, ⟨[], by simp⟩⟩
  | cons fs rest ih =>
    intro idx results st hd hw
    have hrt := run_testing_ok package use_flags_scope fs test_feature_toggle inherited
      (oracle results.length) results
      (einfoSt ("Running " ++ toString idx ++ " of " ++ toString total ++
        " build for '" ++ package ++ "' with '" ++ joinSpace fs ++ "' USE flags ...") st)
      hd hw
    obtain ⟨st', hrun, hfi, hdi, hum, hwf', evs, hevs⟩ :=
      ih (idx + 1)
        (results ++ [{ flags := fs, exit_code := oracle results.length,
                       test_feature := tfVal inherited test_feature_toggle }])
        (afterRun package use_flags_scope fs test_feature_toggle inherited
          (oracle results.length)
          (einfoSt ("Running " ++ toString idx ++ " of " ++ toString total ++
            " build for '" ++ package ++ "' with '" ++ joinSpace fs ++ "' USE flags ...") st))
        hd (afterRun_WF _ _ _ _ _ _ _ hw)
    refine ⟨st', ?heq, ?hfi, ?hdi, ?hum, hwf', ?hev⟩
    · simp only [runMatrix, hrt]
      rw [hrun]
      simp [matrixRecords, List.append_assoc]
    · exact hfi
    · exact hdi
    · exact hum
    · refine ⟨[Event.printed ("[INFO] >>> " ++ ("Running " ++ toString idx ++ " of " ++
        toString total ++ " build for '" ++ package ++ "' with '" ++ joinSpace fs ++
        "' USE flags ..."))] ++
        runEvents package use_flags_scope fs test_feature_toggle inherited
          (oracle results.length)
          (einfoSt ("Running " ++ toString idx ++ " of " ++ toString total ++
            " build for '" ++ package ++ "' with '" ++ joinSpace fs ++ "' USE flags ...") st) ++
        evs, ?hev2⟩
      rw [hevs]
      simp [afterRun, einfoSt, printSt]

theorem runMatrix_frame (package use_flags_scope : String) (test_feature_toggle : Bool)
    (inherited : Option String) (oracle : Nat → Int) (total : Nat)
    (combos : List (List String)) :
    ∀ (idx : Nat) (results : List RunRecord) (st : St), WF st →
      (((runMatrix package use_flags_scope test_feature_toggle inherited oracle total
          idx combos results st).2).files = st.files ∧
       ((runMatrix package use_flags_scope test_feature_toggle inherited oracle total
          idx combos results st).2).dirs = st.dirs ∧
       ((runMatrix package use_flags_scope test_feature_toggle inherited oracle total
          idx combos results st).2).umask = st.umask ∧
       WF (runMatrix package use_flags_scope test_feature_toggle inherited oracle total
          idx combos results st).2 ∧
       ∃ evs, ((runMatrix package use_flags_scope test_feature_toggle inherited oracle total
          idx combos results st).2).events = st.events ++ evs) := by
  induction combos with
  | nil =>
    intro idx results st hw
    exact ⟨rfl, rfl, rfl, hw, ⟨[], by simp [runMatrix]⟩⟩
  | cons fs rest ih =>
    intro idx results st hw
    obtain ⟨hfi, hdi, hum, hwf, evs0, hevs0⟩ :=
      run_testing_frame package use_flags_scope fs test_feature_toggle inherited
        (oracle results.length) results
        (einfoSt ("Running " ++ toString idx ++ " of " ++ toString total ++
          " build for '" ++ package ++ "' with '" ++ joinSpace fs ++ "' USE flags ...") st)
        hw
    simp only [runMatrix]
    rcases hres : run_testing package use_flags_scope fs test_feature_toggle inherited
      (oracle results.length) results
      (einfoSt ("Running " ++ toString idx ++ " of " ++ toString total ++
        " build for '" ++ package ++ "' with '" ++ joinSpace fs ++ "' USE flags ...") st)
      with ⟨res, st2⟩
    rw [hres] at hfi hdi hum hwf hevs0
    cases res with
    | error e =>
      exact ⟨hfi, hdi, hum, hwf, ⟨[Event.printed ("[INFO] >>> " ++ ("Running " ++
        toString idx ++ " of " ++ toString total ++ " build for '" ++ package ++
        "' with '" ++ joinSpace fs ++ "' USE flags ..."))] ++ evs0,
        by rw [hevs0]; simp [einfoSt, printSt]⟩⟩
    | ok results2 =>
      obtain ⟨hfi2, hdi2, hum2, hwf2, evs2, hevs2⟩ := ih (idx + 1) results2 st2 hwf
      refine ⟨by rw [hfi2, hfi]; simp [einfoSt, printSt],
        by rw [hdi2, hdi]; simp [einfoSt, printSt],
        by rw [hum2, hum]; simp [einfoSt, printSt], hwf2,
        ⟨[Event.printed ("[INFO] >>> " ++ ("Running " ++ toString idx ++ " of " ++
          toString total ++ " build for '" ++ package ++ "' with '" ++ joinSpace fs ++
          "' USE flags ..."))] ++ evs0 ++ evs2, ?hev⟩⟩
      rw [hevs2, hevs0]
      simp [einfoSt, printSt]

/-! ## Shape and frame lemmas for `matrixPhase` -/

theorem matrixPhase_ok (args : Args) (uc : Option (List (List String)))
    (inherited : Option String) (oracle : Nat → Int) (st : St)
    (hd : "package.use" ∈ st.dirs) (hw : WF st) :
    ∃ st',
      matrixPhase args uc inherited oracle st =
        (.ok (expectedResults args uc inherited oracle), st') ∧
      st'.files = st.files ∧ st'.dirs = st.dirs ∧ st'.umask = st.umask ∧ WF st' ∧
      ∃ evs, st'.events = st.events ++ evs := by
  by_cases htr : truthy uc = true
  · obtain ⟨st1, hrun, hfi, hdi, hum, hwf1, evs1, hev1⟩ :=
      runMatrix_ok args.package args.use_flags_scope
        (args.test_feature_scope == "always") inherited oracle (uc.getD []).length
        (uc.getD []) 1 [] st hd hw
    rw [List.nil_append, List.length_nil] at hrun
    by_cases honce : args.test_feature_scope = "once"
    · have hrt := run_testing_ok args.package args.use_flags_scope []
        (args.test_feature_scope == "once" || args.test_feature_scope == "always")
        inherited
        (oracle (matrixRecords oracle
          (tfVal inherited (args.test_feature_scope == "always")) 0 (uc.getD [])).length)
        (matrixRecords oracle (tfVal inherited (args.test_feature_scope == "always")) 0
          (uc.getD []))
        (einfoSt ("Additional run with FEATURES=test and default USE flags " ++
          "since test-feature-scope is set to 'once'.") st1)
        (by rw [show (einfoSt ("Additional run with FEATURES=test and default USE flags " ++
          "since test-feature-scope is set to 'once'.") st1).dirs = st1.dirs from rfl, hdi]
            exact hd)
        (fun f hf => hwf1 f hf)
      have hexp : expectedResults args uc inherited oracle =
          matrixRecords oracle (tfVal inherited (args.test_feature_scope == "always")) 0
            (uc.getD []) ++
          [{ flags := [], exit_code := oracle (matrixRecords oracle
              (tfVal inherited (args.test_feature_scope == "always")) 0 (uc.getD [])).length,
             test_feature := tfVal inherited
               (args.test_feature_scope == "once" || args.test_feature_scope == "always") }] := by
        unfold expectedResults
        rw [if_pos htr, if_pos (Or.inr honce)]
      refine ⟨afterRun args.package args.use_flags_scope []
        (args.test_feature_scope == "once" || args.test_feature_scope == "always")
        inherited
        (oracle (matrixRecords oracle
          (tfVal inherited (args.test_feature_scope == "always")) 0 (uc.getD [])).length)
        (einfoSt ("Additional run with FEATURES=test and default USE flags " ++
          "since test-feature-scope is set to 'once'.") st1),
        ?_, ?_, ?_, ?_, ?_, ?_⟩
      · unfold matrixPhase
        rw [if_pos htr]
        simp only [hrun]
        rw [if_pos (Or.inr honce), if_pos ⟨htr, honce⟩, hrt, hexp]
      · simp [afterRun, einfoSt, printSt, hfi]
      · simp [afterRun, einfoSt, printSt, hdi]
      · simp [afterRun, einfoSt, printSt, hum]
      · exact afterRun_WF _ _ _ _ _ _ _ (fun f hf => hwf1 f hf)
      · refine ⟨evs1 ++ [Event.printed ("[INFO] >>> " ++
          ("Additional run with FEATURES=test and default USE flags " ++
           "since test-feature-scope is set to 'once'."))] ++
          runEvents args.package args.use_flags_scope []
            (args.test_feature_scope == "once" || args.test_feature_scope == "always")
            inherited
            (oracle (matrixRecords oracle
              (tfVal inherited (args.test_feature_scope == "always")) 0 (uc.getD [])).length)
            (einfoSt ("Additional run with FEATURES=test and default USE flags " ++
              "since test-feature-scope is set to 'once'.") st1), ?_⟩
        simp [afterRun, einfoSt, printSt, hev1]
    · have hno : ¬ (¬ truthy uc = true ∨ args.test_feature_scope = "once") := by
        intro h
        rcases h with h1 | h2
        · exact h1 htr
        · exact honce h2
      have hexp : expectedResults args uc inherited oracle =
          matrixRecords oracle (tfVal inherited (args.test_feature_scope == "always")) 0
            (uc.getD []) := by
        unfold expectedResults
        rw [if_pos htr, if_neg hno]
      refine ⟨st1, ?_, hfi, hdi, hum, hwf1, evs1, hev1⟩
      unfold matrixPhase
      rw [if_pos htr]
      simp only [hrun]
      rw [if_neg hno, hexp]
  · have hrt := run_testing_ok args.package args.use_flags_scope []
      (args.test_feature_scope == "once" || args.test_feature_scope == "always")
      inherited (oracle 0) [] st hd hw
    have hexp : expectedResults args uc inherited oracle =
        [{ flags := [], exit_code := oracle 0,
           test_feature := tfVal inherited
             (args.test_feature_scope == "once" || args.test_feature_scope == "always") }] := by
      unfold expectedResults
      rw [if_neg htr, if_pos (Or.inl htr)]
      simp
    refine ⟨afterRun args.package args.use_flags_scope []
      (args.test_feature_scope == "once" || args.test_feature_scope == "always")
      inherited (oracle 0) st, ?_, ?_, ?_, ?_, ?_, ?_⟩
    · unfold matrixPhase
      rw [if_neg htr]
      simp only []
      rw [if_pos (Or.inl htr), if_neg (fun h => htr h.1), List.length_nil, hrt, hexp]
      simp
    · simp [afterRun, einfoSt, printSt]
    · simp [afterRun, einfoSt, printSt]
    · simp [afterRun, einfoSt, printSt]
    · exact afterRun_WF _ _ _ _ _ _ _ hw
    · exact ⟨runEvents args.package args.use_flags_scope []
        (args.test_feature_scope == "once" || args.test_feature_scope == "always")
        inherited (oracle 0) st, rfl⟩

theorem matrixPhase_frame (args : Args) (uc : Option (List (List String)))
    (inherited : Option String) (oracle : Nat → Int) (st : St) (hw : WF st) :
    ((matrixPhase args uc inherited oracle st).2).files = st.files ∧
    ((matrixPhase args uc inherited oracle st).2).dirs = st.dirs ∧
    ((matrixPhase args uc inherited oracle st).2).umask = st.umask ∧
    WF (matrixPhase args uc inherited oracle st).2 ∧
    ∃ evs, ((matrixPhase args uc inherited oracle st).2).events = st.events ++ evs := by
  unfold matrixPhase
  by_cases htr : truthy uc = true
  · rw [if_pos htr]
    obtain ⟨hfi, hdi, hum, hwf, evs0, hev0⟩ :=
      runMatrix_frame args.package args.use_flags_scope (args.test_feature_scope == "always")
        inherited oracle (uc.getD []).length (uc.getD []) 1 [] st hw
    rcases hm : runMatrix args.package args.use_flags_scope
        (args.test_feature_scope == "always") inherited oracle (uc.getD []).length 1
        (uc.getD []) [] st with ⟨res, st1⟩
    rw [hm] at hfi hdi hum hwf hev0
    dsimp only at hfi hdi hum hwf hev0
    cases res with
    | error e =>
      simp only [hm]
      exact ⟨hfi, hdi, hum, hwf, evs0, hev0⟩
    | ok results1 =>
      simp only [hm]
      by_cases hex : ¬ truthy uc = true ∨ args.test_feature_scope = "once"
      · rw [if_pos hex]
        by_cases hei : truthy uc = true ∧ args.test_feature_scope = "once"
        · rw [if_pos hei]
          obtain ⟨hfi2, hdi2, hum2, hwf2, evs2, hev2⟩ :=
            run_testing_frame args.package args.use_flags_scope []
              (args.test_feature_scope == "once" || args.test_feature_scope == "always")
              inherited (oracle results1.length) results1
              (einfoSt ("Additional run with FEATURES=test and default USE flags " ++
                "since test-feature-scope is set to 'once'.") st1) hwf
          refine ⟨by rw [hfi2]; exact hfi, by rw [hdi2]; exact hdi,
            by rw [hum2]; exact hum, hwf2, ?_⟩
          refine ⟨evs0 ++ [Event.printed ("[INFO] >>> " ++
            ("Additional run with FEATURES=test and default USE flags " ++
             "since test-feature-scope is set to 'once'."))] ++ evs2, ?_⟩
          rw [hev2]
          simp [einfoSt, printSt, hev0]
        · rw [if_neg hei]
          obtain ⟨hfi2, hdi2, hum2, hwf2, evs2, hev2⟩ :=
            run_testing_frame args.package args.use_flags_scope []
              (args.test_feature_scope == "once" || args.test_feature_scope == "always")
              inherited (oracle results1.length) results1 st1 hwf
          refine ⟨by rw [hfi2]; exact hfi, by rw [hdi2]; exact hdi,
            by rw [hum2]; exact hum, hwf2, ⟨evs0 ++ evs2, ?_⟩⟩
          rw [hev2, hev0]
          simp
      · rw [if_neg hex]
        exact ⟨hfi, hdi, hum, hwf, evs0, hev0⟩
  · rw [if_neg htr]
    simp only []
    rw [if_pos (Or.inl htr), if_neg (fun h => htr h.1)]
    exact run_testing_frame args.package args.use_flags_scope []
      (args.test_feature_scope == "once" || args.test_feature_scope == "always")
      inherited (oracle [].length) [] st hw

/-! ## The verdict phase -/

theorem verdictPhase_spec (args : Args) (results : List RunRecord) (st : St) :
    verdictPhase args results st =
      ((if (failuresOf results).isEmpty then Except.ok () else Except.error (.exit 1)),
       results,
       { st with events := st.events ++ reportEvents args.report results ++
           verdictEvents args.package results }) := by
  unfold verdictPhase reportEvents verdictEvents failuresOf
  rcases hr : args.report with _ | path
  · by_cases hf : (results.filter (fun entry => ¬ entry.exit_code = 0)).isEmpty
    · have hf' : ∀ a ∈ results, a.exit_code = 0 := by simpa using hf
      simp only [hr]
      rw [if_pos hf, if_pos hf]
      simp [einfoSt, printSt, hf']
      rw [if_pos hf']
    · have hf' : ¬ ∀ a ∈ results, a.exit_code = 0 := by simpa using hf
      simp only [hr]
      rw [if_neg hf, if_neg hf, foldl_printSt]
      simp [edieSt, printSt, hf']
  · by_cases hf : (results.filter (fun entry => ¬ entry.exit_code = 0)).isEmpty
    · have hf' : ∀ a ∈ results, a.exit_code = 0 := by simpa using hf
      simp only [hr]
      rw [if_pos hf, if_pos hf]
      simp [einfoSt, printSt, hf']
      rw [if_pos hf']
    · have hf' : ¬ ∀ a ∈ results, a.exit_code = 0 := by simpa using hf
      simp only [hr]
      rw [if_neg hf, if_neg hf, foldl_printSt]
      simp [edieSt, printSt, hf']

/-! ## The complete operation -/

theorem bracketSt_WF (package : String) (st : St) (hw : WF st) :
    WF (bracketSt package st) := by
  unfold bracketSt
  intro f hf
  rcases List.mem_cons.1 hf with h | h
  · simp [h]
  · rcases List.mem_cons.1 h with h2 | h2
    · simp [h2]
      exact Nat.lt_succ_of_lt (Nat.lt_succ_self _)
    · exact Nat.lt_succ_of_lt (Nat.lt_succ_of_lt (hw f h2))

theorem pkg_unfold (args : Args) (iuse : List String) (sampled : List (List String))
    (inherited : Option String) (oracle : Nat → Int) (st : St)
    (hdK : "package.accept_keywords" ∈ st.dirs) (hdU : "package.unmask" ∈ st.dirs)
    (hw : WF st) :
    pkg_testing_tool args iuse sampled inherited oracle st =
      (match matrixPhase args (ucOf iuse sampled) inherited oracle
          (bracketSt args.package st) with
       | (.error e, st5) =>
          (.error e, [], closeTmp st.nextId (closeTmp (st.nextId + 1) st5))
       | (.ok results, st5) =>
          verdictPhase args results (closeTmp st.nextId (closeTmp (st.nextId + 1) st5))) := by
  have h1 := tpf_ok "package.accept_keywords" st hdK hw
  have hw1 : WF
      { dirs := st.dirs,
        files := ⟨st.nextId, "package.accept_keywords", "", modeFromUmask st.umask⟩ :: st.files,
        nextId := st.nextId + 1, umask := st.umask,
        events := st.events ++ [Event.created "package.accept_keywords" st.nextId] } := by
    intro f hf
    rcases List.mem_cons.1 hf with h | h
    · simp [h]
    · exact Nat.lt_succ_of_lt (hw f h)
  have h2 := tpf_ok "package.unmask"
    { dirs := st.dirs,
      files := ⟨st.nextId, "package.accept_keywords", "", modeFromUmask st.umask⟩ :: st.files,
      nextId := st.nextId + 1, umask := st.umask,
      events := st.events ++ [Event.created "package.accept_keywords" st.nextId] }
    hdU hw1
  have hm1 : st.files.map (fun f =>
      if f.id == st.nextId then { f with content := f.content ++ (args.package ++ " **") }
      else f) = st.files :=
    map_id_of _ _ (fun f hf => by simp [Nat.ne_of_lt (hw f hf)])
  have hm2 : st.files.map (fun f =>
      if f.id == st.nextId + 1 then { f with content := f.content ++ args.package }
      else f) = st.files :=
    map_id_of _ _ (fun f hf => by
      simp [Nat.ne_of_lt (Nat.lt_succ_of_lt (hw f hf))])
  have hS4 : fwrite (st.nextId + 1) args.package
      (fwrite st.nextId (args.package ++ " **")
        { dirs := st.dirs,
          files := ⟨st.nextId + 1, "package.unmask", "", modeFromUmask st.umask⟩ ::
            ⟨st.nextId, "package.accept_keywords", "", modeFromUmask st.umask⟩ :: st.files,
          nextId := st.nextId + 1 + 1, umask := st.umask,
          events := st.events ++ [Event.created "package.accept_keywords" st.nextId] ++
            [Event.created "package.unmask" (st.nextId + 1)] }) =
      bracketSt args.package st := by
    unfold bracketSt
    simp only [fwrite, List.map_cons, hm1, hm2]
    simp [Nat.succ_ne_self]
  unfold pkg_testing_tool
  simp only [h1, h2, hS4]

theorem pkg_spec (args : Args) (iuse : List String) (sampled : List (List String))
    (inherited : Option String) (oracle : Nat → Int) (st : St)
    (hdK : "package.accept_keywords" ∈ st.dirs) (hdU : "package.unmask" ∈ st.dirs)
    (hdP : "package.use" ∈ st.dirs) (hw : WF st) :
    ∃ stF,
      pkg_testing_tool args iuse sampled inherited oracle st =
        ((if (failuresOf (finalResults args iuse sampled inherited oracle)).isEmpty
            then Except.ok () else Except.error (.exit 1)),
         finalResults args iuse sampled inherited oracle, stF) ∧
      stF.files = st.files ∧ stF.dirs = st.dirs ∧ stF.umask = st.umask ∧ WF stF ∧
      ∃ evs, stF.events = st.events ++ evs ++
        reportEvents args.report (finalResults args iuse sampled inherited oracle) ++
        verdictEvents args.package (finalResults args iuse sampled inherited oracle) := by
  rw [pkg_unfold args iuse sampled inherited oracle st hdK hdU hw]
  obtain ⟨st5, hmp, hfi5, hdi5, hum5, hwf5, evs5, hev5⟩ :=
    matrixPhase_ok args (ucOf iuse sampled) inherited oracle (bracketSt args.package st)
      hdP (bracketSt_WF args.package st hw)
  have hc : closeTmp st.nextId (closeTmp (st.nextId + 1) st5) =
      { dirs := st5.dirs, files := st.files, nextId := st5.nextId, umask := st5.umask,
        events := st5.events ++ [Event.removed (st.nextId + 1)] ++ [Event.removed st.nextId] } := by
    unfold closeTmp
    rw [hfi5]
    simp [bracketSt]
  simp only [hmp, hc, verdictPhase_spec]
  refine ⟨
    { dirs := st5.dirs, files := st.files, nextId := st5.nextId, umask := st5.umask,
      events := st5.events ++ [Event.removed (st.nextId + 1)] ++ [Event.removed st.nextId] ++
        reportEvents args.report (finalResults args iuse sampled inherited oracle) ++
        verdictEvents args.package (finalResults args iuse sampled inherited oracle) },
    ?_, rfl, ?_, ?_, ?_, ?_⟩
  · unfold finalResults
    simp
  · rw [hdi5]
    rfl
  · rw [hum5]
    rfl
  · intro f hf
    exact hwf5 f (by rw [hfi5]
                     exact List.mem_cons_of_mem _ (List.mem_cons_of_mem _ hf))
  · refine ⟨[Event.created "package.accept_keywords" st.nextId] ++
      [Event.created "package.unmask" (st.nextId + 1)] ++
      [Event.wrote st.nextId (args.package ++ " **")] ++
      [Event.wrote (st.nextId + 1) args.package] ++ evs5 ++
      [Event.removed (st.nextId + 1)] ++ [Event.removed st.nextId], ?_⟩
    rw [hev5]
    simp [bracketSt]

/-! ## Further helper lemmas -/

theorem tfVal_id (inherited : Option String) (hin : "test" ∉ inhTokens inherited)
    (b : Bool) : tfVal inherited b = b := by
  cases b
  · exact tfVal_false inherited hin
  · exact tfVal_true inherited

theorem failuresOf_isEmpty_iff (results : List RunRecord) :
    (failuresOf results).isEmpty = true ↔ ∀ r ∈ results, r.exit_code = 0 := by
  simp [failuresOf, List.isEmpty_iff, List.filter_eq_nil_iff]

theorem joinSpace_no_newline (l : List String) (h : ∀ t ∈ l, Char.ofNat 10 ∉ t.data) :
    Char.ofNat 10 ∉ (joinSpace l).data := by
  induction l with
  | nil => simp [joinSpace]
  | cons f rest ih =>
    cases rest with
    | nil => exact h f (List.mem_cons_self f [])
    | cons g rest2 =>
      show Char.ofNat 10 ∉ ((f ++ " ") ++ joinSpace (g :: rest2)).data
      rw [String.data_append, String.data_append]
      intro hmem
      rcases List.mem_append.1 hmem with h1 | h2
      · rcases List.mem_append.1 h1 with h3 | h4
        · exact h f (List.mem_cons_self f _) h3
        · revert h4
          decide
      · exact ih (fun t ht => h t (List.mem_cons_of_mem f ht)) h2

/-! ## C1: no overlay file leaks out of an operation -/

/-- C1: for every operation (any inputs, any starting well-formed state),
the overlay files present in the configuration directories after
`pkg_testing_tool` returns — whether it ends in success, in the failure
verdict, or in a fatal precondition error — are exactly the files
present before it started. -/
theorem overlay_files_preserved (args : Args) (iuse : List String)
    (sampled : List (List String)) (inherited : Option String) (oracle : Nat → Int)
    (st : St) (hw : WF st) :
    (((pkg_testing_tool args iuse sampled inherited oracle st).2).2).files = st.files := by
  by_cases hdK : "package.accept_keywords" ∈ st.dirs
  · by_cases hdU : "package.unmask" ∈ st.dirs
    · rw [pkg_unfold args iuse sampled inherited oracle st hdK hdU hw]
      obtain ⟨hfi, hdi, hum, hwf, evs0, hev0⟩ :=
        matrixPhase_frame args (ucOf iuse sampled) inherited oracle
          (bracketSt args.package st) (bracketSt_WF args.package st hw)
      rcases hm : matrixPhase args (ucOf iuse sampled) inherited oracle
          (bracketSt args.package st) with ⟨res, st5⟩
      rw [hm] at hfi hdi hum hwf hev0
      dsimp only at hfi hdi hum hwf hev0
      have hcf : (closeTmp st.nextId (closeTmp (st.nextId + 1) st5)).files = st.files := by
        unfold closeTmp
        rw [hfi]
        simp [bracketSt]
      cases res with
      | error e =>
        simp only [hm]
        exact hcf
      | ok results =>
        simp only [hm, verdictPhase_spec]
        exact hcf
    · have h1 := tpf_ok "package.accept_keywords" st hdK hw
      have h2 := tpf_err "package.unmask"
        { dirs := st.dirs,
          files := ⟨st.nextId, "package.accept_keywords", "", modeFromUmask st.umask⟩ :: st.files,
          nextId := st.nextId + 1, umask := st.umask,
          events := st.events ++ [Event.created "package.accept_keywords" st.nextId] }
        hdU
      unfold pkg_testing_tool
      simp only [h1, h2]
      simp [closeTmp, printSt]
  · have h1 := tpf_err "package.accept_keywords" st hdK
    unfold pkg_testing_tool
    simp only [h1]
    simp [printSt]

/-- Witness for C1 at a concrete input. -/
theorem overlay_files_preserved_witness :
    (((pkg_testing_tool ⟨"=a/b-1", "local", "once", none⟩ ["x"] [["x"]] none (fun _ => 0)
        ⟨["package.accept_keywords", "package.unmask", "package.use"], [], 0, 18, []⟩).2).2).files =
      [] :=
  overlay_files_preserved _ _ _ _ _ _ (by decide)

/-! ## C2 and C3: the test-feature policy over the matrix -/

/-- C2 counterexample: with policy `once`, one sampled combination and an
inherited environment whose FEATURES value already contains the token
`test`, both run records report `test_feature = true`, not just the last
one — the claim as stated is false on this input. -/
theorem test_once_counterexample :
    ((pkg_testing_tool ⟨"=a/b-1", "local", "once", none⟩ ["x"] [["x"]] (some "test")
        (fun _ => 0)
        ⟨["package.accept_keywords", "package.unmask", "package.use"], [], 0, 18,
          []⟩).2.1).map RunRecord.test_feature = [true, true] ∧
    ¬ ((pkg_testing_tool ⟨"=a/b-1", "local", "once", none⟩ ["x"] [["x"]] (some "test")
        (fun _ => 0)
        ⟨["package.accept_keywords", "package.unmask", "package.use"], [], 0, 18,
          []⟩).2.1).map RunRecord.test_feature = [false, true] := by
  decide

/-- C2 (amended): with policy `once` and a non-empty sampled sequence of
length N, exactly N+1 runs occur — the N matrix runs on the sampled
combinations followed by one default-flags run — and, provided the
inherited FEATURES value does not already contain the token `test`,
exactly the last record has `test_feature = true`. -/
theorem test_once_runs (args : Args) (iuse : List String) (sampled : List (List String))
    (inherited : Option String) (oracle : Nat → Int) (st : St)
    (hsc : args.test_feature_scope = "once")
    (hiu : ¬ iuse.isEmpty = true) (hsm : ¬ sampled.isEmpty = true)
    (hdK : "package.accept_keywords" ∈ st.dirs) (hdU : "package.unmask" ∈ st.dirs)
    (hdP : "package.use" ∈ st.dirs) (hw : WF st)
    (hin : "test" ∉ inhTokens inherited) :
    ((pkg_testing_tool args iuse sampled inherited oracle st).2.1).length =
      sampled.length + 1 ∧
    ((pkg_testing_tool args iuse sampled inherited oracle st).2.1).map RunRecord.flags =
      sampled ++ [[]] ∧
    ((pkg_testing_tool args iuse sampled inherited oracle st).2.1).map
        RunRecord.test_feature =
      List.replicate sampled.length false ++ [true] := by
  obtain ⟨stF, heq, _⟩ := pkg_spec args iuse sampled inherited oracle st hdK hdU hdP hw
  rw [heq]
  dsimp only
  have hfr : finalResults args iuse sampled inherited oracle =
      matrixRecords oracle false 0 sampled ++
        [⟨[], oracle (matrixRecords oracle false 0 sampled).length, true⟩] := by
    unfold finalResults expectedResults ucOf
    rw [if_neg hiu]
    have htr : truthy (some sampled) = true := by
      simp [truthy, hsm]
    rw [if_pos htr, if_pos (Or.inr hsc), hsc]
    have h1 : ("once" == "always") = false := by decide
    have h2 : ("once" == "once" || "once" == "always") = true := by decide
    rw [h2, h1, tfVal_id inherited hin false, tfVal_true inherited]
    simp
  rw [hfr]
  refine ⟨?_, ?_, ?_⟩
  · simp [matrixRecords_length]
  · simp [matrixRecords_map_flags]
  · simp [matrixRecords_map_tf]

/-- Witness for C2 (amended) at a concrete input. -/
theorem test_once_runs_witness :
    ((pkg_testing_tool ⟨"=a/b-1", "local", "once", none⟩ ["x"] [["x"]] none (fun _ => 0)
        ⟨["package.accept_keywords", "package.unmask", "package.use"], [], 0, 18,
          []⟩).2.1).map RunRecord.test_feature = List.replicate 1 false ++ [true] :=
  (test_once_runs ⟨"=a/b-1", "local", "once", none⟩ ["x"] [["x"]] none (fun _ => 0)
    ⟨["package.accept_keywords", "package.unmask", "package.use"], [], 0, 18, []⟩
    rfl (by decide) (by decide) (by decide) (by decide) (by decide) (by decide)
    (by decide)).2.2

/-- C3: with policy `always` and a non-empty sampled sequence of length
N, exactly N runs occur — one per sampled combination, in order, with no
additional default-flags run — and every record has
`test_feature = true` (whatever FEATURES was inherited). -/
theorem test_always_runs (args : Args) (iuse : List String) (sampled : List (List String))
    (inherited : Option String) (oracle : Nat → Int) (st : St)
    (hsc : args.test_feature_scope = "always")
    (hiu : ¬ iuse.isEmpty = true) (hsm : ¬ sampled.isEmpty = true)
    (hdK : "package.accept_keywords" ∈ st.dirs) (hdU : "package.unmask" ∈ st.dirs)
    (hdP : "package.use" ∈ st.dirs) (hw : WF st) :
    ((pkg_testing_tool args iuse sampled inherited oracle st).2.1).length =
      sampled.length ∧
    ((pkg_testing_tool args iuse sampled inherited oracle st).2.1).map RunRecord.flags =
      sampled ∧
    ∀ r ∈ (pkg_testing_tool args iuse sampled inherited oracle st).2.1,
      r.test_feature = true := by
  obtain ⟨stF, heq, _⟩ := pkg_spec args iuse sampled inherited oracle st hdK hdU hdP hw
  rw [heq]
  dsimp only
  have hfr : finalResults args iuse sampled inherited oracle =
      matrixRecords oracle true 0 sampled := by
    unfold finalResults expectedResults ucOf
    rw [if_neg hiu]
    have htr : truthy (some sampled) = true := by
      simp [truthy, hsm]
    rw [if_pos htr, hsc]
    have h1 : ("always" == "always") = true := by decide
    have hno : ¬ (¬ truthy (some sampled) = true ∨ ("always" : String) = "once") := by
      intro h
      rcases h with h | h
      · exact h htr
      · exact absurd h (by decide)
    rw [if_neg hno, h1, tfVal_true inherited]
    simp
  rw [hfr]
  refine ⟨matrixRecords_length oracle true 0 sampled,
    matrixRecords_map_flags oracle true 0 sampled, ?_⟩
  intro r hr
  have hmem : r.test_feature ∈ (matrixRecords oracle true 0 sampled).map
      RunRecord.test_feature := List.mem_map_of_mem _ hr
  rw [matrixRecords_map_tf] at hmem
  exact List.eq_of_mem_replicate hmem

/-- Witness for C3 at a concrete input. -/
theorem test_always_runs_witness :
    ((pkg_testing_tool ⟨"=a/b-1", "local", "always", none⟩ ["x"] [["x"]]
        (some "test foo") (fun _ => 0)
        ⟨["package.accept_keywords", "package.unmask", "package.use"], [], 0, 18,
          []⟩).2.1).length = 1 ∧
    ((pkg_testing_tool ⟨"=a/b-1", "local", "always", none⟩ ["x"] [["x"]]
        (some "test foo") (fun _ => 0)
        ⟨["package.accept_keywords", "package.unmask", "package.use"], [], 0, 18,
          []⟩).2.1).map RunRecord.flags = [["x"]] :=
  ⟨(test_always_runs ⟨"=a/b-1", "local", "always", none⟩ ["x"] [["x"]] (some "test foo")
      (fun _ => 0)
      ⟨["package.accept_keywords", "package.unmask", "package.use"], [], 0, 18, []⟩
      rfl (by decide) (by decide) (by decide) (by decide) (by decide) (by decide)).1,
   (test_always_runs ⟨"=a/b-1", "local", "always", none⟩ ["x"] [["x"]] (some "test foo")
      (fun _ => 0)
      ⟨["package.accept_keywords", "package.unmask", "package.use"], [], 0, 18, []⟩
      rfl (by decide) (by decide) (by decide) (by decide) (by decide) (by decide)).2.1⟩

/-! ## C4 and C5: the per-run flag overlay -/

/-- C4 counterexample: a run with an empty flag combination does create a
file in the `package.use` configuration directory (the claim that no
per-run flag overlay file is created is false on the code): the trace of
a concrete empty-flags run contains a creation event for `package.use`. -/
theorem empty_flags_overlay_created :
    Event.created "package.use" 0 ∈
      ((run_testing "=a/b-1" "local" [] false none 0 []
        ⟨["package.use"], [], 0, 18, []⟩).2).events := by
  decide

/-- C4 (amended): for every run with an empty flag combination, the
per-run `package.use` overlay is created but nothing is ever written to
it — there is no write event, the file is empty at the moment the build
command runs, and it is removed when the run ends — so the package
manager sees only an empty overlay and its default flags apply. -/
theorem empty_flags_no_write (package use_flags_scope : String)
    (test_feature_toggle : Bool) (inherited : Option String) (ec : Int)
    (results : List RunRecord) (st : St)
    (hd : "package.use" ∈ st.dirs) (hw : WF st)
    (hclean : ∀ f ∈ st.files, ¬ f.dir = "package.use") :
    run_testing package use_flags_scope [] test_feature_toggle inherited ec results st =
      (.ok (results ++
        [{ flags := [], exit_code := ec,
           test_feature := tfVal inherited test_feature_toggle }]),
       { st with
         nextId := st.nextId + 1,
         events := st.events ++
           [Event.created "package.use" st.nextId,
            Event.emerged package (newFeatures inherited test_feature_toggle) ec
              [(st.nextId, "")],
            Event.printed "", Event.removed st.nextId] }) := by
  rw [run_testing_ok package use_flags_scope [] test_feature_toggle inherited ec
    results st hd hw]
  have hfil : st.files.filter (fun f => f.dir == "package.use") = [] :=
    List.filter_eq_nil_iff.2 (fun f hf => by simp [hclean f hf])
  unfold afterRun runEvents
  rw [hfil]
  simp

/-- Witness for C4 (amended) at a concrete input. -/
theorem empty_flags_no_write_witness :
    run_testing "=a/b-1" "local" [] false none 0 [] ⟨["package.use"], [], 0, 18, []⟩ =
      (.ok [{ flags := [], exit_code := 0, test_feature := tfVal none false }],
       { dirs := ["package.use"], files := [], nextId := 1, umask := 18,
         events := [Event.created "package.use" 0,
           Event.emerged "=a/b-1" (newFeatures none false) 0 [(0, "")],
           Event.printed "", Event.removed 0] }) :=
  empty_flags_no_write "=a/b-1" "local" false none 0 []
    ⟨["package.use"], [], 0, 18, []⟩ (by decide) (by decide) (by decide)

/-- C5: for every run with a non-empty flag combination, the per-run
overlay receives exactly one write, whose text is the selector (`*/*`
under global scope, the exact atom otherwise) followed by a space, the
space-joined flags and a newline; that text is exactly the overlay's
content at the moment the build command runs, and (when neither the atom
nor any flag contains a newline) it consists of exactly one line. -/
theorem nonempty_flags_overlay_line (package use_flags_scope : String)
    (flags_set : List String) (test_feature_toggle : Bool) (inherited : Option String)
    (ec : Int) (results : List RunRecord) (st : St)
    (hfs : ¬ flags_set.isEmpty = true)
    (hd : "package.use" ∈ st.dirs) (hw : WF st)
    (hclean : ∀ f ∈ st.files, ¬ f.dir = "package.use")
    (hp : Char.ofNat 10 ∉ package.data)
    (hfl : ∀ t ∈ flags_set, Char.ofNat 10 ∉ t.data) :
    ((run_testing package use_flags_scope flags_set test_feature_toggle inherited ec
        results st).2).events =
      st.events ++
        [Event.created "package.use" st.nextId,
         Event.wrote st.nextId ((if use_flags_scope = "global" then "*/*" else package) ++
           " " ++ joinSpace flags_set ++ "\n"),
         Event.emerged package (newFeatures inherited test_feature_toggle) ec
           [(st.nextId, (if use_flags_scope = "global" then "*/*" else package) ++
             " " ++ joinSpace flags_set ++ "\n")],
         Event.printed "", Event.removed st.nextId] ∧
    (((if use_flags_scope = "global" then "*/*" else package) ++ " " ++
        joinSpace flags_set ++ "\n").data.count (Char.ofNat 10)) = 1 := by
  constructor
  · rw [run_testing_ok package use_flags_scope flags_set test_feature_toggle inherited ec
      results st hd hw]
    have hfil : st.files.filter (fun f => f.dir == "package.use") = [] :=
      List.filter_eq_nil_iff.2 (fun f hf => by simp [hclean f hf])
    unfold afterRun runEvents selLine
    rw [hfil]
    simp [hfs]
  · have hsel : Char.ofNat 10 ∉
        ((if use_flags_scope = "global" then "*/*" else package)).data := by
      split
      · decide
      · exact hp
    have hjs := joinSpace_no_newline flags_set hfl
    rw [String.data_append, String.data_append, String.data_append]
    rw [List.count_append, List.count_append, List.count_append]
    rw [List.count_eq_zero.2 hsel, List.count_eq_zero.2 hjs]
    decide

/-- Witness for C5 at a concrete input. -/
theorem nonempty_flags_overlay_line_witness :
    ((run_testing "=a/b-1" "local" ["x", "-y"] false none 0 []
        ⟨["package.use"], [], 0, 18, []⟩).2).events =
      [Event.created "package.use" 0,
       Event.wrote 0 ("=a/b-1" ++ " " ++ joinSpace ["x", "-y"] ++ "\n"),
       Event.emerged "=a/b-1" (newFeatures none false) 0
         [(0, "=a/b-1" ++ " " ++ joinSpace ["x", "-y"] ++ "\n")],
       Event.printed "", Event.removed 0] :=
  (nonempty_flags_overlay_line "=a/b-1" "local" ["x", "-y"] false none 0 []
    ⟨["package.use"], [], 0, 18, []⟩ (by decide) (by decide) (by decide) (by decide)
    (by decide) (by decide)).1

/-! ## C6: environment composition -/

/-- C6: the environment handed to the build command agrees with the
inherited process environment on every variable other than FEATURES; the
inherited FEATURES value, when present, is kept as a prefix with the
composed features appended (never replaced); and the token list of the
final FEATURES value is the inherited tokens followed by the five safety
features, with `test` appended exactly when the run's test-enablement
toggle is true. -/
theorem run_env_features (inheritedEnv : String → Option String)
    (test_feature_toggle : Bool) :
    (∀ k, ¬ k = "FEATURES" → runEnv inheritedEnv test_feature_toggle k = inheritedEnv k) ∧
    (∀ v, inheritedEnv "FEATURES" = some v →
      runEnv inheritedEnv test_feature_toggle "FEATURES" =
        some (v ++ " " ++ composedFeatures test_feature_toggle)) ∧
    pySplit ((runEnv inheritedEnv test_feature_toggle "FEATURES").getD "") =
      inhTokens (inheritedEnv "FEATURES") ++
        ["multilib-strict", "collision-protect", "sandbox", "userpriv", "usersandbox"] ++
        (if test_feature_toggle then ["test"] else []) := by
  refine ⟨?_, ?_, ?_⟩
  · intro k hk
    simp [runEnv, hk]
  · intro v hv
    simp [runEnv, newFeatures, hv]
  · have hr : runEnv inheritedEnv test_feature_toggle "FEATURES" =
        some (newFeatures (inheritedEnv "FEATURES") test_feature_toggle) := by
      simp [runEnv]
    rw [hr]
    have h1 : pySplit (composedFeatures false) =
        ["multilib-strict", "collision-protect", "sandbox", "userpriv", "usersandbox"] := by
      decide
    have h2 : pySplit (composedFeatures true) =
        ["multilib-strict", "collision-protect", "sandbox", "userpriv", "usersandbox",
         "test"] := by
      decide
    cases hin : inheritedEnv "FEATURES" with
    | none =>
      show pySplit (newFeatures none test_feature_toggle) = _
      cases test_feature_toggle
      · rw [show newFeatures none false = composedFeatures false from rfl, h1]
        simp [inhTokens]
      · rw [show newFeatures none true = composedFeatures true from rfl, h2]
        simp [inhTokens]
    | some v =>
      show pySplit (newFeatures (some v) test_feature_toggle) = _
      cases test_feature_toggle
      · rw [show newFeatures (some v) false = v ++ " " ++ composedFeatures false from rfl,
          pySplit_append_space, h1]
        simp [inhTokens]
      · rw [show newFeatures (some v) true = v ++ " " ++ composedFeatures true from rfl,
          pySplit_append_space, h2]
        simp [inhTokens]

/-- Witness for C6 at a concrete input. -/
theorem run_env_features_witness :
    runEnv (fun k => if k = "FEATURES" then some "foo" else none) true "PATH" = none ∧
    runEnv (fun k => if k = "FEATURES" then some "foo" else none) true "FEATURES" =
      some ("foo" ++ " " ++ composedFeatures true) :=
  ⟨(run_env_features (fun k => if k = "FEATURES" then some "foo" else none) true).1
      "PATH" (by decide),
   (run_env_features (fun k => if k = "FEATURES" then some "foo" else none) true).2.1
      "foo" (by simp)⟩

/-! ## C7: the verdict and the process exit code -/

/-- C7: for every execution that completes all runs, the exit code is 0
exactly when every run record has exit code 0; otherwise it is 1 and the
output ends with one line per failing run — naming that run's flag set —
followed by the error line naming the atom. -/
theorem verdict_exit_code (args : Args) (iuse : List String)
    (sampled : List (List String)) (inherited : Option String) (oracle : Nat → Int)
    (st : St)
    (hdK : "package.accept_keywords" ∈ st.dirs) (hdU : "package.unmask" ∈ st.dirs)
    (hdP : "package.use" ∈ st.dirs) (hw : WF st) :
    (exitCodeOf (pkg_testing_tool args iuse sampled inherited oracle st).1 = 0 ↔
      ∀ r ∈ (pkg_testing_tool args iuse sampled inherited oracle st).2.1,
        r.exit_code = 0) ∧
    (¬ (failuresOf ((pkg_testing_tool args iuse sampled inherited oracle st).2.1)).isEmpty
        = true →
      exitCodeOf (pkg_testing_tool args iuse sampled inherited oracle st).1 = 1 ∧
      ∃ pre, ((pkg_testing_tool args iuse sampled inherited oracle st).2.2).events =
        pre ++
          (failuresOf ((pkg_testing_tool args iuse sampled inherited oracle st).2.1)).map
            (fun entry => Event.printed (failLine entry)) ++
          [Event.printed ("[ERROR] >>> " ++
            ("Testing of '" ++ args.package ++ "' resulted in some failures."))]) := by
  obtain ⟨stF, heq, hfi, hdi, hum, hwf, evs, hev⟩ :=
    pkg_spec args iuse sampled inherited oracle st hdK hdU hdP hw
  rw [heq]
  dsimp only
  by_cases hf : (failuresOf (finalResults args iuse sampled inherited oracle)).isEmpty
      = true
  · rw [if_pos hf]
    constructor
    · exact iff_of_true rfl ((failuresOf_isEmpty_iff _).1 hf)
    · intro hc
      exact absurd hf hc
  · rw [if_neg hf]
    constructor
    · constructor
      · intro h0
        simp [exitCodeOf] at h0
      · intro hall
        exact absurd ((failuresOf_isEmpty_iff _).2 hall) hf
    · intro _
      refine ⟨by simp [exitCodeOf],
        ⟨st.events ++ evs ++
          reportEvents args.report (finalResults args iuse sampled inherited oracle), ?_⟩⟩
      rw [hev]
      unfold verdictEvents
      rw [if_neg hf]
      simp [List.append_assoc]

/-- Witness for C7 at a concrete input with one failing run. -/
theorem verdict_exit_code_witness :
    exitCodeOf (pkg_testing_tool ⟨"=a/b-1", "local", "never", none⟩ [] [] none
      (fun _ => 1)
      ⟨["package.accept_keywords", "package.unmask", "package.use"], [], 0, 18, []⟩).1
      = 1 :=
  ((verdict_exit_code ⟨"=a/b-1", "local", "never", none⟩ [] [] none (fun _ => 1)
      ⟨["package.accept_keywords", "package.unmask", "package.use"], [], 0, 18, []⟩
      (by decide) (by decide) (by decide) (by decide)).2 (by decide)).1

/-! ## C8: zero declared flags -/

/-- C8 counterexample: with zero declared flags, policy `never` and an
inherited FEATURES value that already contains the token `test`, the
single run record reports `test_feature = true`, not `false` — the claim
as stated is false on this input. -/
theorem zero_flags_never_counterexample :
    ((pkg_testing_tool ⟨"=a/b-1", "local", "never", none⟩ [] [] (some "test")
        (fun _ => 0)
        ⟨["package.accept_keywords", "package.unmask", "package.use"], [], 0, 18,
          []⟩).2.1).map RunRecord.test_feature = [true] ∧
    ¬ ((pkg_testing_tool ⟨"=a/b-1", "local", "never", none⟩ [] [] (some "test")
        (fun _ => 0)
        ⟨["package.accept_keywords", "package.unmask", "package.use"], [], 0, 18,
          []⟩).2.1).map RunRecord.test_feature = [false] := by
  decide

/-- C8 (amended): with zero declared flags exactly one run occurs, with
the empty flag combination, and — provided the inherited FEATURES value
does not already contain the token `test` — its `test_feature` is true
exactly when the policy is `once` or `always`. -/
theorem zero_flags_single_run (args : Args) (iuse : List String)
    (sampled : List (List String)) (inherited : Option String) (oracle : Nat → Int)
    (st : St) (hiu : iuse = [])
    (hdK : "package.accept_keywords" ∈ st.dirs) (hdU : "package.unmask" ∈ st.dirs)
    (hdP : "package.use" ∈ st.dirs) (hw : WF st)
    (hin : "test" ∉ inhTokens inherited) :
    (pkg_testing_tool args iuse sampled inherited oracle st).2.1 =
      [{ flags := [], exit_code := oracle 0,
         test_feature := args.test_feature_scope == "once" ||
           args.test_feature_scope == "always" }] := by
  obtain ⟨stF, heq, _⟩ := pkg_spec args iuse sampled inherited oracle st hdK hdU hdP hw
  rw [heq]
  dsimp only
  unfold finalResults expectedResults ucOf
  subst hiu
  rw [if_pos (show ([] : List String).isEmpty = true from rfl)]
  have ht : ¬ truthy none = true := by decide
  rw [if_neg ht, if_pos (Or.inl ht), tfVal_id inherited hin]
  simp

/-- Witness for C8 (amended) at a concrete input. -/
theorem zero_flags_single_run_witness :
    (pkg_testing_tool ⟨"=a/b-1", "local", "never", none⟩ [] [] none (fun _ => 0)
      ⟨["package.accept_keywords", "package.unmask", "package.use"], [], 0, 18,
        []⟩).2.1 =
      [{ flags := [], exit_code := 0, test_feature := false }] :=
  zero_flags_single_run ⟨"=a/b-1", "local", "never", none⟩ [] [] none (fun _ => 0)
    ⟨["package.accept_keywords", "package.unmask", "package.use"], [], 0, 18, []⟩
    rfl (by decide) (by decide) (by decide) (by decide) (by decide)

/-! ## C9: umask handling on overlay acquisition -/

/-- C9: every overlay acquisition leaves the process umask exactly as it
found it, and the created file's permission bits are `0o644` with the
umask's bits cleared, computed from the umask that was current at
acquisition time. -/
theorem umask_restored_and_mode (directory_name : String) (st : St) :
    ((temporary_package_file directory_name st).2).umask = st.umask ∧
    ∀ id, (temporary_package_file directory_name st).1 = .ok id →
      ((temporary_package_file directory_name st).2).files.head? =
        some ⟨id, directory_name, "", 0o644 &&& (0o777 ^^^ (st.umask &&& 0o777))⟩ := by
  by_cases hd : directory_name ∈ st.dirs
  · constructor
    · unfold temporary_package_file os_umask chmod
      simp [hd]
    · intro id hid
      unfold temporary_package_file os_umask chmod at hid ⊢
      simp [hd] at hid ⊢
      subst hid
      simp
  · constructor
    · unfold temporary_package_file edieSt printSt
      simp [hd]
    · intro id hid
      unfold temporary_package_file edieSt at hid
      simp [hd] at hid

/-- Witness for C9 at a concrete input. -/
theorem umask_restored_and_mode_witness :
    ((temporary_package_file "package.use"
        ⟨["package.use"], [], 5, 18, []⟩).2).umask = 18 ∧
    ((temporary_package_file "package.use"
        ⟨["package.use"], [], 5, 18, []⟩).2).files.head? =
      some ⟨5, "package.use", "", 420⟩ :=
  ⟨(umask_restored_and_mode "package.use" ⟨["package.use"], [], 5, 18, []⟩).1,
   (umask_restored_and_mode "package.use" ⟨["package.use"], [], 5, 18, []⟩).2 5 rfl⟩

/-! ## C10: report emission precedes the verdict -/

/-- C10: when a report path is supplied, the report — carrying the full
ordered results sequence — is written before any verdict output is
rendered and before the process exits, on the all-passed path and on the
some-runs-failed path alike: the trace ends with the report event
followed by the (non-empty) verdict output. -/
theorem report_before_verdict (args : Args) (iuse : List String)
    (sampled : List (List String)) (inherited : Option String) (oracle : Nat → Int)
    (st : St) (path : String) (hrep : args.report = some path)
    (hdK : "package.accept_keywords" ∈ st.dirs) (hdU : "package.unmask" ∈ st.dirs)
    (hdP : "package.use" ∈ st.dirs) (hw : WF st) :
    ∃ pre, ((pkg_testing_tool args iuse sampled inherited oracle st).2.2).events =
      pre ++
        [Event.reportWritten path
          ((pkg_testing_tool args iuse sampled inherited oracle st).2.1)] ++
        verdictEvents args.package
          ((pkg_testing_tool args iuse sampled inherited oracle st).2.1) ∧
      ¬ verdictEvents args.package
          ((pkg_testing_tool args iuse sampled inherited oracle st).2.1) = [] := by
  obtain ⟨stF, heq, hfi, hdi, hum, hwf, evs, hev⟩ :=
    pkg_spec args iuse sampled inherited oracle st hdK hdU hdP hw
  rw [heq]
  dsimp only
  refine ⟨st.events ++ evs, ?_, ?_⟩
  · rw [hev]
    unfold reportEvents
    rw [hrep]
  · unfold verdictEvents
    by_cases hf : (failuresOf (finalResults args iuse sampled inherited oracle)).isEmpty
        = true
    · rw [if_pos hf]
      simp
    · rw [if_neg hf]
      simp

/-- Witness for C10 at a concrete input. -/
theorem report_before_verdict_witness :
    ∃ pre, ((pkg_testing_tool ⟨"=a/b-1", "local", "never", some "out.json"⟩ [] [] none
        (fun _ => 0)
        ⟨["package.accept_keywords", "package.unmask", "package.use"], [], 0, 18,
          []⟩).2.2).events =
      pre ++
        [Event.reportWritten "out.json"
          ((pkg_testing_tool ⟨"=a/b-1", "local", "never", some "out.json"⟩ [] [] none
            (fun _ => 0)
            ⟨["package.accept_keywords", "package.unmask", "package.use"], [], 0, 18,
              []⟩).2.1)] ++
        verdictEvents "=a/b-1"
          ((pkg_testing_tool ⟨"=a/b-1", "local", "never", some "out.json"⟩ [] [] none
            (fun _ => 0)
            ⟨["package.accept_keywords", "package.unmask", "package.use"], [], 0, 18,
              []⟩).2.1) ∧
      ¬ verdictEvents "=a/b-1"
          ((pkg_testing_tool ⟨"=a/b-1", "local", "never", some "out.json"⟩ [] [] none
            (fun _ => 0)
            ⟨["package.accept_keywords", "package.unmask", "package.use"], [], 0, 18,
              []⟩).2.1) = [] :=
  report_before_verdict ⟨"=a/b-1", "local", "never", some "out.json"⟩ [] [] none
    (fun _ => 0)
    ⟨["package.accept_keywords", "package.unmask", "package.use"], [], 0, 18, []⟩
    "out.json" rfl (by decide) (by decide) (by decide) (by decide)

end PkgTestingTool
